import Mathlib

/-!
# Level5 budget proxy — formal model

A shallow embedding of the Level5 metered proxy (FastAPI + SQLite source):
the ledger (`database.py`), the mirror reconciliation kernel and account
parser (`mirror.py`), and the proxy metering engine (`main.py`).

SQLite tables are modelled as lists of rows; SQL `SELECT ... LIMIT 1` /
`fetchone` becomes `List.find?`, `UPDATE ... WHERE` becomes `List.map` over
matching rows, `INSERT` becomes list append.  Wall-clock timestamp columns
(`updated_at`, `created_at`, `activated_at`, `timestamp`) carry no
information used by any property below and are omitted from the row types.
The SQL `REAL` exchange rate and Python float arithmetic are modelled as
exact rationals.
-/

/-- A row of the `agents` table: primary key `(pubkey, token_mint)`. -/
structure AgentRow where
  pubkey : String
  token_mint : String
  balance : Int
deriving DecidableEq

/-- A row of the `transactions` append-only log. -/
structure TxRecord where
  agent_pubkey : String
  token_mint : String
  txType : String
  amount : Int
  usage_json : Option String
deriving DecidableEq

/-- A row of the `api_tokens` table; `pubkey = none` models SQL NULL
(a pending, not yet activated token). -/
structure ApiTokenRow where
  api_token : String
  deposit_code : String
  pubkey : Option String
deriving DecidableEq

/-- The persistent store: the four tables of `database.py`
(`token_config` is reduced to its `usd_rate` column, the only one read). -/
structure DB where
  agents : List AgentRow
  transactions : List TxRecord
  tokenRates : List (String × ℚ)
  apiTokens : List ApiTokenRow
deriving DecidableEq

/-- `database.USDC_MINT` (devnet default). -/
def USDC_MINT : String := "4zMMC9srt5Ri5X14GAgXhaHii3GnPAEERYPJgZJDncDU"

/-- `database.SOL_MINT`. -/
def SOL_MINT : String := "So11111111111111111111111111111111111111112"

/-- `database.get_balance`: `SELECT balance FROM agents WHERE pubkey = ? AND
token_mint = ?`, row absent gives 0. -/
def get_balance (db : DB) (pk mint : String) : Int :=
  match db.agents.find? (fun r => r.pubkey = pk ∧ r.token_mint = mint) with
  | some r => r.balance
  | none => 0

/-- First statement of `database.update_balance`:
`INSERT OR IGNORE INTO agents (pubkey, token_mint, balance) VALUES (?, ?, 0)`. -/
def insertOrIgnoreAgent (db : DB) (pk mint : String) : DB :=
  if (db.agents.find? (fun r => r.pubkey = pk ∧ r.token_mint = mint)).isSome then db
  else { db with agents := db.agents ++ [⟨pk, mint, 0⟩] }

/-- Second statement of `database.update_balance`:
`UPDATE agents SET balance = balance + ? WHERE pubkey = ? AND token_mint = ?`. -/
def applyBalanceDelta (db : DB) (pk mint : String) (delta : Int) : DB :=
  { db with agents := db.agents.map (fun r =>
      if r.pubkey = pk ∧ r.token_mint = mint then { r with balance := r.balance + delta } else r) }

/-- Third statement of `database.update_balance`:
`INSERT INTO transactions (agent_pubkey, token_mint, type, amount, usage_json)`. -/
def appendTx (db : DB) (pk mint ty : String) (amount : Int) (usage : Option String) : DB :=
  { db with transactions := db.transactions ++ [⟨pk, mint, ty, amount, usage⟩] }

/-- `database.update_balance`, the committed effect of its transaction:
insert-or-ignore the row, add `amount` to the balance, append one
transaction record. -/
def update_balance (db : DB) (pk mint : String) (amount : Int) (ty : String)
    (usage : Option String) : DB :=
  appendTx (applyBalanceDelta (insertOrIgnoreAgent db pk mint) pk mint amount) pk mint ty amount
    usage

/-- `database.update_balance` with its BEGIN/commit/rollback control flow made
explicit: each of the three SQL statements may fail (flags `f1 f2 f3`, an
arbitrary I/O failure oracle); on any failure the transaction rolls back, so
no new state is produced (`Except.error`) and the caller keeps the input
`db`; the exception re-raises (`raise` in the source). -/
def update_balance_run (f1 f2 f3 : Bool) (db : DB) (pk mint : String) (amount : Int)
    (ty : String) (usage : Option String) : Except Unit DB :=
  if f1 then Except.error () else
  let db1 := insertOrIgnoreAgent db pk mint
  if f2 then Except.error () else
  let db2 := applyBalanceDelta db1 pk mint amount
  if f3 then Except.error () else
  Except.ok (appendTx db2 pk mint ty amount usage)

/-- Python dict assignment `m[k] = v` (used to model the dict comprehension in
`get_all_balances`): overwrite the binding when the key is present, append
otherwise. -/
def dictInsert (m : List (String × Int)) (k : String) (v : Int) : List (String × Int) :=
  if (m.find? (fun e => e.1 = k)).isSome then
    m.map (fun e => if e.1 = k then (k, v) else e)
  else m ++ [(k, v)]

/-- `database.get_all_balances`: the dict comprehension over
`SELECT token_mint, balance FROM agents WHERE pubkey = ?`. -/
def get_all_balances (db : DB) (pk : String) : List (String × Int) :=
  db.agents.foldl (fun m r => if r.pubkey = pk then dictInsert m r.token_mint r.balance else m) []

/-- `database.get_exchange_rate`: `SELECT usd_rate FROM token_config WHERE
token_mint = ?`, 0.0 when absent. -/
def get_exchange_rate (db : DB) (mint : String) : ℚ :=
  match db.tokenRates.find? (fun r => r.1 = mint) with
  | some r => r.2
  | none => 0

/-- `database.create_api_token`: insert a fresh pending row (pubkey NULL).
The two freshly generated random identifiers are taken as parameters. -/
def create_api_token (db : DB) (api_token deposit_code : String) : DB :=
  { db with apiTokens := db.apiTokens ++ [⟨api_token, deposit_code, none⟩] }

/-- `database.activate_token`: find the row by deposit code; if absent return
`none` and leave the table unchanged; otherwise set `pubkey` on every row with
that code (`UPDATE api_tokens SET pubkey = ? WHERE deposit_code = ?`) and
return the api_token of the row found. -/
def activate_token (db : DB) (code pk : String) : Option String × DB :=
  match db.apiTokens.find? (fun r => r.deposit_code = code) with
  | none => (none, db)
  | some row =>
    (some row.api_token,
     { db with apiTokens := db.apiTokens.map (fun r =>
         if r.deposit_code = code then { r with pubkey := some pk } else r) })

/-- Modelled from the spec: `find_token_by_deposit_code` is exercised by the
repository's tests (`tests/test_mirror.py`, class `TestFindTokenByDepositCode`)
but its definition is not among the source files under `database.py`.  Per the
spec it returns the token iff a row exists with that code AND `pubkey IS
NULL` (still pending); activated codes return null. -/
def find_token_by_deposit_code (db : DB) (code : String) : Option String :=
  (db.apiTokens.find? (fun r => r.deposit_code = code ∧ r.pubkey = none)).map
    (fun r => r.api_token)

/-- `database.get_pubkey_from_token`: `SELECT pubkey FROM api_tokens WHERE
api_token = ?`; the source returns `row["pubkey"] if row and row["pubkey"]
else None`, so a NULL — or empty-string — pubkey yields `none`. -/
def get_pubkey_from_token (db : DB) (t : String) : Option String :=
  match db.apiTokens.find? (fun r => r.api_token = t) with
  | none => none
  | some r =>
    match r.pubkey with
    | none => none
    | some p => if p = "" then none else some p

/-- Sum of `amount` over the transaction records of one `(pubkey, mint)`
pair — the algebraic sum the ledger invariant speaks about. -/
def txSum (txs : List TxRecord) (pk mint : String) : Int :=
  ((txs.filter (fun t => t.agent_pubkey = pk ∧ t.token_mint = mint)).map
    (fun t => t.amount)).sum

/-- The ledger invariant of the spec: for any `(pubkey, mint)`, the algebraic
sum of `amount` over all transactions equals the current balance. -/
def LedgerInv (db : DB) : Prop :=
  ∀ pk mint : String, get_balance db pk mint = txSum db.transactions pk mint

/-- Token usage as normalized by the proxy (`input_tokens`, `output_tokens`). -/
structure Usage where
  input_tokens : Nat
  output_tokens : Nat
deriving DecidableEq

/-- One row of the `PRICING` table of `main.py`: price per 1k tokens in USDC
smallest units. -/
structure ModelPricing where
  inputRate : Nat
  outputRate : Nat
deriving DecidableEq

/-- `main.DEFAULT_PRICING`. -/
def DEFAULT_PRICING : ModelPricing := ⟨5000, 15000⟩

/-- `main.PRICING.get(model, DEFAULT_PRICING)`: the static model→rate table
of `main.py`, with the default for unknown models. -/
def PRICING_get (model : String) : ModelPricing :=
  if model = "claude-sonnet-4-5-20250929" then ⟨3000, 15000⟩
  else if model = "claude-opus-4-6" then ⟨15000, 75000⟩
  else if model = "claude-3-5-haiku-20241022" then ⟨800, 4000⟩
  else if model = "gpt-4o" then ⟨2500, 10000⟩
  else if model = "gpt-5.2" then ⟨1500, 4500⟩
  else if model = "claude-4.5-opus" then ⟨3000, 15000⟩
  else DEFAULT_PRICING

/-- `main._calculate_cost_usdc`:
`int(in_tok * p.input / 1000 + out_tok * p.output / 1000)`.
The two divisions are exact rationals here (the source uses Python floats);
`int()` on this non-negative value is the floor. -/
def calculate_cost_usdc (usage : Usage) (model : String) : Int :=
  let p := PRICING_get model
  Int.floor ((usage.input_tokens * p.inputRate : ℚ) / 1000
    + (usage.output_tokens * p.outputRate : ℚ) / 1000)

/-- `main._debit_agent`: USDC-first, SOL-fallback debit.  Returns the mint
debited (or `none` on insufficient funds) together with the new store. -/
def debit_agent (db : DB) (pk : String) (cost_usdc : Int) (usage_json : String) :
    Option String × DB :=
  let usdc_balance := get_balance db pk USDC_MINT
  if cost_usdc ≤ usdc_balance then
    (some USDC_MINT, update_balance db pk USDC_MINT (-cost_usdc) "DEBIT" (some usage_json))
  else
    let sol_rate := get_exchange_rate db SOL_MINT
    if 0 < sol_rate then
      let cost_sol : Int := Int.ceil ((cost_usdc * 1000 : ℚ) / sol_rate)
      let sol_balance := get_balance db pk SOL_MINT
      if cost_sol ≤ sol_balance then
        (some SOL_MINT, update_balance db pk SOL_MINT (-cost_sol) "DEBIT" (some usage_json))
      else (none, db)
    else (none, db)

/-- The usage_json snapshot written by `mirror._sync_balance`; the source
serializes `on_chain_balance`, `local_balance_before` and a wall-clock
`synced_at` as JSON — the timestamp is omitted here. -/
def mirror_snapshot (on_chain_balance local_before : Int) : String :=
  "on_chain " ++ toString on_chain_balance ++ " local_before " ++ toString local_before

/-- `mirror.LiquidMirror._sync_balance`: read the local balance, compute the
delta against the on-chain balance, auto-activate a pending token on first
deposit (`delta > 0 and current == 0 and deposit_code`), then append a
MIRROR_DEPOSIT / MIRROR_CORRECTION transaction when `delta != 0`. -/
def sync_balance (db : DB) (owner mint : String) (on_chain_balance : Int)
    (deposit_code : String) : DB :=
  let current := get_balance db owner mint
  let delta := on_chain_balance - current
  let db1 :=
    if 0 < delta ∧ current = 0 ∧ deposit_code ≠ "" then (activate_token db deposit_code owner).2
    else db
  if delta ≠ 0 then
    update_balance db1 owner mint delta
      (if 0 < delta then "MIRROR_DEPOSIT" else "MIRROR_CORRECTION")
      (some (mirror_snapshot on_chain_balance current))
  else db1

/-- `mirror.DEPOSIT_ACCOUNT_DISCRIMINATOR`, as a byte list. -/
def DEPOSIT_ACCOUNT_DISCRIMINATOR : List Nat := [0xd8, 0x92, 0x6f, 0x2a, 0x5c, 0x08, 0x4a, 0x3e]

/-- `mirror.MAX_SQLITE_INTEGER = (1 << 63) - 1`. -/
def MAX_SQLITE_INTEGER : Nat := 2 ^ 63 - 1

/-- `struct.unpack_from("<Q", ...)` on an 8-byte slice: little-endian base-256
decoding. -/
def decodeLE (bs : List Nat) : Nat :=
  bs.foldr (fun b acc => b + 256 * acc) 0

/-- The mint field of a parsed deposit account: the legacy layout assumes
`database.SOL_MINT`; V2/V3 read 32 raw bytes (base58-encoded by the source —
base58 of 32 bytes is injective, so the raw bytes stand in for the string). -/
inductive MintField where
  | solDefault : MintField
  | fromBytes : List Nat → MintField
deriving DecidableEq

/-- The record returned by `mirror.parse_deposit_account`.  `deposit_code`
keeps the raw 8 code bytes with trailing NULs stripped (the source decodes
them as UTF-8 with replacement and `rstrip("\x00")`). -/
structure DepositAccountRec where
  owner : List Nat
  mint : MintField
  deposit_code : List Nat
  balance : Nat
deriving DecidableEq

/-- `rstrip("\x00")` on raw code bytes. -/
def stripTrailingNul (bs : List Nat) : List Nat :=
  (bs.reverse.dropWhile (fun b => b = 0)).reverse

/-- `mirror.parse_deposit_account`: length-dispatched decoding of the three
account layouts.  Faithful to the source: the 8-byte discriminator prefix is
NOT examined (the constant `DEPOSIT_ACCOUNT_DISCRIMINATOR` is defined in the
source module but never used by the parser); `None` is returned exactly for
inputs shorter than 48 bytes and for balances above `MAX_SQLITE_INTEGER`. -/
def parse_deposit_account (data : List Nat) : Option DepositAccountRec :=
  if data.length < 48 then none
  else
    let owner := (data.drop 8).take 32
    let parsed : MintField × List Nat × Nat :=
      if 88 ≤ data.length then
        (MintField.fromBytes ((data.drop 40).take 32),
         stripTrailingNul ((data.drop 72).take 8),
         decodeLE ((data.drop 80).take 8))
      else if 80 ≤ data.length then
        (MintField.fromBytes ((data.drop 40).take 32), [], decodeLE ((data.drop 72).take 8))
      else
        (MintField.solDefault, [], decodeLE ((data.drop 40).take 8))
    if MAX_SQLITE_INTEGER < parsed.2.2 then none
    else some ⟨owner, parsed.1, parsed.2.1, parsed.2.2⟩

/-- The request fields `handle_proxy` inspects: `body.get("model", "unknown")`
(absent model is `none` here), `X-MOCK-UPSTREAM: true`, `body.get("stream",
False)`. -/
structure ProxyRequest where
  modelField : Option String
  isMock : Bool
  isStreaming : Bool
deriving DecidableEq

/-- What a real upstream call produces, as `handle_proxy` consumes it: an HTTP
status and the normalized usage parsed from the response (JSON body or SSE
stream). -/
structure UpstreamResult where
  status : Nat
  usage : Usage
deriving DecidableEq

/-- The observable outcome of one proxy request: HTTP status, the proxy's own
JSON error message when it rejects (the source wraps it as an `error` object),
the resulting store, and whether any upstream request was issued. -/
structure ProxyOutcome where
  status : Nat
  errorMsg : Option String
  db : DB
  upstreamCalled : Bool
deriving DecidableEq

/-- The JSON-serialized usage string passed to `_debit_agent`
(`json.dumps(usage)`); the JSON wrapping is reduced to the two counters. -/
def usageJson (u : Usage) : String :=
  "input_tokens " ++ toString u.input_tokens ++ " output_tokens " ++ toString u.output_tokens

/-- `main.handle_proxy` for an already-resolved pubkey: admission check
(sum of all balances ≤ 0 → 402 before anything else), then the mock path
(canned usage 15/25, debit, 402 on debit failure) or the real upstream path
(500 when the key is missing; otherwise the upstream is called, usage parsed,
debited — a debit failure after a real upstream call is only logged).
Streaming and non-streaming differ only in response framing, not in
admission, usage or debiting, so both collapse to the same outcome here. -/
def handle_proxy (db : DB) (agent_pubkey : String) (req : ProxyRequest)
    (api_key : Option String) (upstream : UpstreamResult) : ProxyOutcome :=
  let total := ((get_all_balances db agent_pubkey).map (fun e => e.2)).sum
  if total ≤ 0 then ⟨402, some "Insufficient Deposit Balance", db, false⟩
  else
    let model := req.modelField.getD "unknown"
    if req.isMock then
      let usage : Usage := ⟨15, 25⟩
      let cost := calculate_cost_usdc usage model
      let res := debit_agent db agent_pubkey cost (usageJson usage)
      match res.1 with
      | none => ⟨402, some "Insufficient Deposit Balance", res.2, false⟩
      | some _ => ⟨200, none, res.2, false⟩
    else
      match api_key with
      | none => ⟨500, some "Upstream API key not configured", db, false⟩
      | some _ =>
        let cost := calculate_cost_usdc upstream.usage model
        let res := debit_agent db agent_pubkey cost (usageJson upstream.usage)
        ⟨upstream.status, none, res.2, true⟩

/-- `main.openai_proxy` (and identically `anthropic_proxy`): resolve the URL
token to a pubkey; `none` → 401 before `handle_proxy` runs. -/
def openai_proxy (db : DB) (agent_token : String) (req : ProxyRequest)
    (api_key : Option String) (upstream : UpstreamResult) : ProxyOutcome :=
  match get_pubkey_from_token db agent_token with
  | none => ⟨401, some "Invalid or inactive API token", db, false⟩
  | some pk => handle_proxy db pk req api_key upstream

/-- `database.init_db` on a fresh database file: empty `agents`,
`transactions` and `api_tokens` tables, `token_config` seeded with the SOL
rate (default 150.0, configurable) and USDC at 1.0. -/
def init_db (sol_usdc_rate : ℚ) : DB :=
  ⟨[], [], [(SOL_MINT, sol_usdc_rate), (USDC_MINT, 1)], []⟩

/-- The little-endian u64 balance field `parse_deposit_account` decodes for a
given input, at the length-dependent offset (80 for the V3 layout, 72 for V2,
40 for legacy).  Only meaningful for `data.length ≥ 48`. -/
def balanceFieldOf (data : List Nat) : Nat :=
  if 88 ≤ data.length then decodeLE ((data.drop 80).take 8)
  else if 80 ≤ data.length then decodeLE ((data.drop 72).take 8)
  else decodeLE ((data.drop 40).take 8)

/-! ## Basic table-preservation lemmas -/

theorem insertOrIgnoreAgent_transactions (db : DB) (pk mint : String) :
    (insertOrIgnoreAgent db pk mint).transactions = db.transactions := by
  unfold insertOrIgnoreAgent; split <;> rfl

theorem insertOrIgnoreAgent_apiTokens (db : DB) (pk mint : String) :
    (insertOrIgnoreAgent db pk mint).apiTokens = db.apiTokens := by
  unfold insertOrIgnoreAgent; split <;> rfl

theorem insertOrIgnoreAgent_tokenRates (db : DB) (pk mint : String) :
    (insertOrIgnoreAgent db pk mint).tokenRates = db.tokenRates := by
  unfold insertOrIgnoreAgent; split <;> rfl

theorem update_balance_transactions (db : DB) (pk mint : String) (a : Int) (ty : String)
    (u : Option String) :
    (update_balance db pk mint a ty u).transactions = db.transactions ++ [⟨pk, mint, ty, a, u⟩] := by
  unfold update_balance appendTx applyBalanceDelta
  simp [insertOrIgnoreAgent_transactions]

theorem update_balance_apiTokens (db : DB) (pk mint : String) (a : Int) (ty : String)
    (u : Option String) :
    (update_balance db pk mint a ty u).apiTokens = db.apiTokens := by
  unfold update_balance appendTx applyBalanceDelta
  simp [insertOrIgnoreAgent_apiTokens]

theorem update_balance_tokenRates (db : DB) (pk mint : String) (a : Int) (ty : String)
    (u : Option String) :
    (update_balance db pk mint a ty u).tokenRates = db.tokenRates := by
  unfold update_balance appendTx applyBalanceDelta
  simp [insertOrIgnoreAgent_tokenRates]

theorem activate_token_agents (db : DB) (code pk : String) :
    ((activate_token db code pk).2).agents = db.agents := by
  unfold activate_token
  cases h : db.apiTokens.find? (fun r => r.deposit_code = code) <;> rfl

theorem activate_token_transactions (db : DB) (code pk : String) :
    ((activate_token db code pk).2).transactions = db.transactions := by
  unfold activate_token
  cases h : db.apiTokens.find? (fun r => r.deposit_code = code) <;> rfl

theorem activate_token_tokenRates (db : DB) (code pk : String) :
    ((activate_token db code pk).2).tokenRates = db.tokenRates := by
  unfold activate_token
  cases h : db.apiTokens.find? (fun r => r.deposit_code = code) <;> rfl

theorem get_balance_congr_agents (db db' : DB) (pk mint : String)
    (h : db'.agents = db.agents) : get_balance db' pk mint = get_balance db pk mint := by
  unfold get_balance; rw [h]

/-! ## `get_balance` after each statement of `update_balance` -/

theorem agentKeyFields_delta (pk mint : String) (δ : Int) (r : AgentRow) :
    ((if r.pubkey = pk ∧ r.token_mint = mint then { r with balance := r.balance + δ }
      else r) : AgentRow).pubkey = r.pubkey ∧
    ((if r.pubkey = pk ∧ r.token_mint = mint then { r with balance := r.balance + δ }
      else r) : AgentRow).token_mint = r.token_mint := by
  split <;> exact ⟨rfl, rfl⟩

theorem find?_singleton {α : Type} (p : α → Bool) (a : α) :
    [a].find? p = if p a then some a else none := by
  cases h : p a with
  | true => rw [if_pos rfl]; exact List.find?_cons_of_pos _ h
  | false =>
    rw [if_neg (by simp)]
    rw [List.find?_cons_of_neg _ (by simp [h])]
    rfl

theorem insertOrIgnoreAgent_agents (db : DB) (pk mint : String) :
    (insertOrIgnoreAgent db pk mint).agents =
      if (db.agents.find? (fun r => r.pubkey = pk ∧ r.token_mint = mint)).isSome then db.agents
      else db.agents ++ [⟨pk, mint, 0⟩] := by
  unfold insertOrIgnoreAgent; split <;> simp_all

theorem get_balance_insertOrIgnoreAgent (db : DB) (pk mint pk' mint' : String) :
    get_balance (insertOrIgnoreAgent db pk mint) pk' mint' = get_balance db pk' mint' := by
  unfold get_balance
  rw [insertOrIgnoreAgent_agents]
  by_cases hc : (db.agents.find? (fun r => r.pubkey = pk ∧ r.token_mint = mint)).isSome
  · rw [if_pos hc]
  · rw [if_neg hc, List.find?_append]
    cases h : db.agents.find? (fun r => decide (r.pubkey = pk' ∧ r.token_mint = mint')) with
    | some r => rw [Option.or_some]
    | none =>
      rw [Option.none_or, find?_singleton]
      by_cases hm : pk = pk' ∧ mint = mint'
      · rw [if_pos (by simp [hm.1, hm.2])]
      · rw [if_neg (by simpa using hm)]

theorem insertOrIgnoreAgent_isSome (db : DB) (pk mint : String) :
    ((insertOrIgnoreAgent db pk mint).agents.find?
      (fun r => r.pubkey = pk ∧ r.token_mint = mint)).isSome := by
  rw [insertOrIgnoreAgent_agents]
  by_cases hc : (db.agents.find? (fun r => r.pubkey = pk ∧ r.token_mint = mint)).isSome
  · rw [if_pos hc]; exact hc
  · rw [if_neg hc, List.find?_append]
    cases h : db.agents.find? (fun r => decide (r.pubkey = pk ∧ r.token_mint = mint)) with
    | some r => rw [Option.or_some]; rfl
    | none => rw [Option.none_or, find?_singleton, if_pos (by simp)]; rfl

theorem applyBalanceDelta_pred_comp (pk mint pk' mint' : String) (δ : Int) :
    ((fun r : AgentRow => decide (r.pubkey = pk' ∧ r.token_mint = mint')) ∘
      (fun r : AgentRow =>
        if r.pubkey = pk ∧ r.token_mint = mint then { r with balance := r.balance + δ } else r))
    = fun r : AgentRow => decide (r.pubkey = pk' ∧ r.token_mint = mint') := by
  funext r
  simp only [Function.comp]
  split <;> rfl

theorem get_balance_applyBalanceDelta_same (db : DB) (pk mint : String) (δ : Int)
    (h : (db.agents.find? (fun r => r.pubkey = pk ∧ r.token_mint = mint)).isSome) :
    get_balance (applyBalanceDelta db pk mint δ) pk mint = get_balance db pk mint + δ := by
  unfold get_balance applyBalanceDelta
  rw [List.find?_map, applyBalanceDelta_pred_comp]
  obtain ⟨r, hr⟩ := Option.isSome_iff_exists.mp h
  rw [hr]
  have hp : r.pubkey = pk ∧ r.token_mint = mint := by simpa using List.find?_some hr
  simp [hp]

theorem get_balance_applyBalanceDelta_other (db : DB) (pk mint pk' mint' : String) (δ : Int)
    (hne : ¬(pk' = pk ∧ mint' = mint)) :
    get_balance (applyBalanceDelta db pk mint δ) pk' mint' = get_balance db pk' mint' := by
  unfold get_balance applyBalanceDelta
  rw [List.find?_map, applyBalanceDelta_pred_comp]
  cases h : db.agents.find? (fun r => decide (r.pubkey = pk' ∧ r.token_mint = mint')) with
  | none => rfl
  | some r =>
    have hp : r.pubkey = pk' ∧ r.token_mint = mint' := by simpa using List.find?_some h
    have hnr : ¬(r.pubkey = pk ∧ r.token_mint = mint) := by
      rintro ⟨h1, h2⟩
      exact hne ⟨hp.1 ▸ h1, hp.2 ▸ h2⟩
    simp [hnr]

theorem get_balance_appendTx (db : DB) (pk mint ty : String) (a : Int) (u : Option String)
    (pk' mint' : String) :
    get_balance (appendTx db pk mint ty a u) pk' mint' = get_balance db pk' mint' := rfl

theorem get_balance_update_balance_same (db : DB) (pk mint : String) (a : Int) (ty : String)
    (u : Option String) :
    get_balance (update_balance db pk mint a ty u) pk mint = get_balance db pk mint + a := by
  unfold update_balance
  rw [get_balance_appendTx,
    get_balance_applyBalanceDelta_same _ _ _ _ (insertOrIgnoreAgent_isSome db pk mint),
    get_balance_insertOrIgnoreAgent]

theorem get_balance_update_balance_other (db : DB) (pk mint : String) (a : Int) (ty : String)
    (u : Option String) (pk' mint' : String) (hne : ¬(pk' = pk ∧ mint' = mint)) :
    get_balance (update_balance db pk mint a ty u) pk' mint' = get_balance db pk' mint' := by
  unfold update_balance
  rw [get_balance_appendTx, get_balance_applyBalanceDelta_other _ _ _ _ _ _ hne,
    get_balance_insertOrIgnoreAgent]

theorem txSum_append_one (txs : List TxRecord) (t : TxRecord) (pk mint : String) :
    txSum (txs ++ [t]) pk mint =
      txSum txs pk mint +
        (if t.agent_pubkey = pk ∧ t.token_mint = mint then t.amount else 0) := by
  unfold txSum
  rw [List.filter_append]
  by_cases h : t.agent_pubkey = pk ∧ t.token_mint = mint
  · simp [h]
  · simp [h]

theorem update_balance_rowExists (db : DB) (pk mint : String) (a : Int) (ty : String)
    (u : Option String) :
    ((update_balance db pk mint a ty u).agents.find?
      (fun r => r.pubkey = pk ∧ r.token_mint = mint)).isSome := by
  show ((applyBalanceDelta (insertOrIgnoreAgent db pk mint) pk mint a).agents.find?
    (fun r => r.pubkey = pk ∧ r.token_mint = mint)).isSome
  unfold applyBalanceDelta
  rw [List.find?_map, applyBalanceDelta_pred_comp, Option.isSome_map']
  exact insertOrIgnoreAgent_isSome db pk mint

theorem LedgerInv_update_balance (db : DB) (pk mint : String) (a : Int) (ty : String)
    (u : Option String) (hInv : LedgerInv db) :
    LedgerInv (update_balance db pk mint a ty u) := by
  intro pk' mint'
  rw [update_balance_transactions, txSum_append_one]
  by_cases hk : pk' = pk ∧ mint' = mint
  · obtain ⟨h1, h2⟩ := hk
    subst h1; subst h2
    rw [get_balance_update_balance_same, hInv pk' mint']
    simp
  · rw [get_balance_update_balance_other _ _ _ _ _ _ _ _ hk, hInv pk' mint']
    have : ¬((⟨pk, mint, ty, a, u⟩ : TxRecord).agent_pubkey = pk' ∧
        (⟨pk, mint, ty, a, u⟩ : TxRecord).token_mint = mint') := by
      intro hcon
      exact hk ⟨hcon.1.symm, hcon.2.symm⟩
    simp [this]

/-- C2: for every `(pubkey, mint)` pair at rest the stored balance equals the
algebraic sum of `amount` over all transaction records for that pair, and
every `update_balance` call preserves this invariant atomically: inside one
transaction it inserts the balance row if absent, adds the delta to the
balance (other pairs untouched), and appends exactly one transaction record;
any failure of any of its three statements rolls the transaction back with no
partial application.  The fresh database satisfies the invariant. -/
theorem C2_update_balance_atomic_ledger_invariant (db : DB) (pk mint : String) (a : Int)
    (ty : String) (u : Option String) :
    (∀ f1 f2 f3 : Bool,
      update_balance_run f1 f2 f3 db pk mint a ty u
          = Except.ok (update_balance db pk mint a ty u) ∨
        update_balance_run f1 f2 f3 db pk mint a ty u = Except.error ()) ∧
    ((update_balance db pk mint a ty u).agents.find?
        (fun r => r.pubkey = pk ∧ r.token_mint = mint)).isSome ∧
    get_balance (update_balance db pk mint a ty u) pk mint = get_balance db pk mint + a ∧
    (∀ pk' mint' : String, ¬(pk' = pk ∧ mint' = mint) →
      get_balance (update_balance db pk mint a ty u) pk' mint' = get_balance db pk' mint') ∧
    (update_balance db pk mint a ty u).transactions
        = db.transactions ++ [⟨pk, mint, ty, a, u⟩] ∧
    (LedgerInv db → LedgerInv (update_balance db pk mint a ty u)) ∧
    (∀ r : ℚ, LedgerInv (init_db r)) := by
  refine ⟨?_, update_balance_rowExists db pk mint a ty u,
    get_balance_update_balance_same db pk mint a ty u,
    fun pk' mint' h => get_balance_update_balance_other db pk mint a ty u pk' mint' h,
    update_balance_transactions db pk mint a ty u,
    LedgerInv_update_balance db pk mint a ty u, ?_⟩
  · intro f1 f2 f3
    cases f1 <;> cases f2 <;> cases f3 <;>
      simp [update_balance_run, update_balance]
  · intro r pk' mint'
    simp [init_db, get_balance, txSum, List.find?]

/-- Witness for C2 at a concrete input: a debit of 5 on a fresh store
preserves the ledger invariant; the invariant hypothesis is discharged by the
fresh-store conjunct of the theorem itself. -/
theorem C2_update_balance_atomic_ledger_invariant_witness :
    LedgerInv (update_balance (init_db 150) "AgentPk" USDC_MINT (-5) "DEBIT" none) :=
  (C2_update_balance_atomic_ledger_invariant (init_db 150) "AgentPk" USDC_MINT (-5) "DEBIT"
    none).2.2.2.2.2.1
    ((C2_update_balance_atomic_ledger_invariant (init_db 150) "AgentPk" USDC_MINT (-5) "DEBIT"
      none).2.2.2.2.2.2 150)

/-- C1: for every agent and cost `c ≥ 0` (USDC micro-units), `_debit_agent`
debits exactly `c` from USDC and returns the USDC mint when the USDC balance
covers it; otherwise, when the stored SOL rate `r` is positive and the SOL
balance covers `ceil(c * 1000 / r)` lamports, it debits exactly that many
lamports and returns the SOL mint; otherwise it returns `none` and leaves the
whole store (hence every balance) unchanged.  In particular `r = 0` disables
the SOL fallback entirely. -/
theorem C1_debit_agent_usdc_first_sol_fallback (db : DB) (pk : String) (c : Int)
    (_hc : 0 ≤ c) (uj : String) :
    (c ≤ get_balance db pk USDC_MINT →
      (debit_agent db pk c uj).1 = some USDC_MINT ∧
      get_balance (debit_agent db pk c uj).2 pk USDC_MINT
          = get_balance db pk USDC_MINT - c ∧
      (∀ pk' mint' : String, ¬(pk' = pk ∧ mint' = USDC_MINT) →
        get_balance (debit_agent db pk c uj).2 pk' mint' = get_balance db pk' mint')) ∧
    (get_balance db pk USDC_MINT < c → 0 < get_exchange_rate db SOL_MINT →
      Int.ceil ((c * 1000 : ℚ) / get_exchange_rate db SOL_MINT)
          ≤ get_balance db pk SOL_MINT →
      (debit_agent db pk c uj).1 = some SOL_MINT ∧
      get_balance (debit_agent db pk c uj).2 pk SOL_MINT
          = get_balance db pk SOL_MINT
            - Int.ceil ((c * 1000 : ℚ) / get_exchange_rate db SOL_MINT) ∧
      (∀ pk' mint' : String, ¬(pk' = pk ∧ mint' = SOL_MINT) →
        get_balance (debit_agent db pk c uj).2 pk' mint' = get_balance db pk' mint')) ∧
    (get_balance db pk USDC_MINT < c →
      (get_exchange_rate db SOL_MINT ≤ 0 ∨
        get_balance db pk SOL_MINT
          < Int.ceil ((c * 1000 : ℚ) / get_exchange_rate db SOL_MINT)) →
      debit_agent db pk c uj = (none, db)) ∧
    (get_exchange_rate db SOL_MINT = 0 → get_balance db pk USDC_MINT < c →
      debit_agent db pk c uj = (none, db)) := by
  refine ⟨fun hU => ?_, fun hU hr hS => ?_, fun hU hd => ?_, fun hr0 hU => ?_⟩
  · simp only [debit_agent, if_pos hU]
    refine ⟨trivial, ?_, ?_⟩
    · rw [get_balance_update_balance_same]; omega
    · intro pk' mint' hne
      exact get_balance_update_balance_other _ _ _ _ _ _ _ _ hne
  · have hU' : ¬(c ≤ get_balance db pk USDC_MINT) := by omega
    simp only [debit_agent, if_neg hU', if_pos hr, if_pos hS]
    refine ⟨trivial, ?_, ?_⟩
    · rw [get_balance_update_balance_same]; omega
    · intro pk' mint' hne
      exact get_balance_update_balance_other _ _ _ _ _ _ _ _ hne
  · have hU' : ¬(c ≤ get_balance db pk USDC_MINT) := by omega
    rcases hd with hd | hd
    · have hr' : ¬(0 < get_exchange_rate db SOL_MINT) := by exact not_lt.mpr hd
      simp only [debit_agent, if_neg hU', if_neg hr']
    · by_cases hr : 0 < get_exchange_rate db SOL_MINT
      · have hS' : ¬(Int.ceil ((c * 1000 : ℚ) / get_exchange_rate db SOL_MINT)
            ≤ get_balance db pk SOL_MINT) := by omega
        simp only [debit_agent, if_neg hU', if_pos hr, if_neg hS']
      · simp only [debit_agent, if_neg hU', if_neg hr]
  · have hU' : ¬(c ≤ get_balance db pk USDC_MINT) := by omega
    have hr' : ¬(0 < get_exchange_rate db SOL_MINT) := by rw [hr0]; exact lt_irrefl 0
    simp only [debit_agent, if_neg hU', if_neg hr']

/-- Witness for C1: an agent with 10 USDC micro-units is debited 3 (USDC
branch), and an agent holding only SOL is rejected when the stored SOL rate
is 0. -/
theorem C1_debit_agent_usdc_first_sol_fallback_witness :
    ((debit_agent ⟨[⟨"P", USDC_MINT, 10⟩], [], [], []⟩ "P" 3 "u").1 = some USDC_MINT ∧
      get_balance (debit_agent ⟨[⟨"P", USDC_MINT, 10⟩], [], [], []⟩ "P" 3 "u").2 "P" USDC_MINT
        = 7) ∧
    debit_agent ⟨[⟨"Q", SOL_MINT, 5⟩], [], [(SOL_MINT, 0)], []⟩ "Q" 1 "u"
      = (none, ⟨[⟨"Q", SOL_MINT, 5⟩], [], [(SOL_MINT, 0)], []⟩) := by
  refine ⟨⟨?_, ?_⟩, ?_⟩
  · exact ((C1_debit_agent_usdc_first_sol_fallback ⟨[⟨"P", USDC_MINT, 10⟩], [], [], []⟩ "P" 3
      (by decide) "u").1 (by decide)).1
  · have h := ((C1_debit_agent_usdc_first_sol_fallback ⟨[⟨"P", USDC_MINT, 10⟩], [], [], []⟩ "P" 3
      (by decide) "u").1 (by decide)).2.1
    rw [h]; decide
  · exact (C1_debit_agent_usdc_first_sol_fallback ⟨[⟨"Q", SOL_MINT, 5⟩], [], [(SOL_MINT, 0)], []⟩
      "Q" 1 (by decide) "u").2.2.2 (by decide) (by decide)

theorem cost_gpt52_15_25 : calculate_cost_usdc ⟨15, 25⟩ "gpt-5.2" = 135 := by
  have hp : PRICING_get "gpt-5.2" = ⟨1500, 4500⟩ := by decide
  simp only [calculate_cost_usdc, hp]
  norm_num

/-- C4: for every usage with non-negative integer token counts and every
model, the computed cost in USDC micro-units is the floor — taken after the
sum, in exact rational arithmetic — of `in·p.input/1000 + out·p.output/1000`,
with pricing `{5000, 15000}` for unknown models; for model `gpt-5.2`
(pricing `{1500, 4500}`) and usage `{15, 25}` the cost is 135, and a mock
proxy call against a 10_000_000-micro-USDC balance returns 200 and leaves a
balance of 9_999_865. -/
theorem C4_calculate_cost_usdc_floor_after_sum :
    (∀ (inTok outTok : Nat) (model : String),
      calculate_cost_usdc ⟨inTok, outTok⟩ model
        = Int.floor (((inTok * (PRICING_get model).inputRate
            + outTok * (PRICING_get model).outputRate : ℕ) : ℚ) / 1000)) ∧
    (∀ model : String, model ≠ "claude-sonnet-4-5-20250929" → model ≠ "claude-opus-4-6" →
      model ≠ "claude-3-5-haiku-20241022" → model ≠ "gpt-4o" → model ≠ "gpt-5.2" →
      model ≠ "claude-4.5-opus" → PRICING_get model = ⟨5000, 15000⟩) ∧
    PRICING_get "gpt-5.2" = ⟨1500, 4500⟩ ∧
    calculate_cost_usdc ⟨15, 25⟩ "gpt-5.2" = 135 ∧
    (handle_proxy ⟨[⟨"P", USDC_MINT, 10000000⟩], [], [], []⟩ "P"
        ⟨some "gpt-5.2", true, false⟩ none ⟨200, ⟨0, 0⟩⟩).status = 200 ∧
    get_balance (handle_proxy ⟨[⟨"P", USDC_MINT, 10000000⟩], [], [], []⟩ "P"
        ⟨some "gpt-5.2", true, false⟩ none ⟨200, ⟨0, 0⟩⟩).db "P" USDC_MINT = 9999865 := by
  have h135 := cost_gpt52_15_25
  refine ⟨?_, ?_, by decide, h135, ?_, ?_⟩
  · intro inTok outTok model
    simp only [calculate_cost_usdc]
    rw [div_add_div_same]
    congr 1
    push_cast
    ring
  · intro model h1 h2 h3 h4 h5 h6
    simp [PRICING_get, DEFAULT_PRICING, h1, h2, h3, h4, h5, h6]
  · simp only [handle_proxy, Option.getD_some]
    rw [if_neg (by decide), if_pos trivial, h135]
    decide
  · simp only [handle_proxy, Option.getD_some]
    rw [if_neg (by decide), if_pos trivial, h135]
    decide

/-- Witness for C4: the unknown-model default applies to a model name outside
the pricing table, and the closed formula instance at usage `{15, 25}`. -/
theorem C4_calculate_cost_usdc_floor_after_sum_witness :
    PRICING_get "mystery-model" = ⟨5000, 15000⟩ ∧
    calculate_cost_usdc ⟨15, 25⟩ "gpt-5.2"
      = Int.floor (((15 * (PRICING_get "gpt-5.2").inputRate
          + 25 * (PRICING_get "gpt-5.2").outputRate : ℕ) : ℚ) / 1000) :=
  ⟨C4_calculate_cost_usdc_floor_after_sum.2.1 "mystery-model" (by decide) (by decide)
      (by decide) (by decide) (by decide) (by decide),
    C4_calculate_cost_usdc_floor_after_sum.1 15 25 "gpt-5.2"⟩

/-- C10 (implicit): a debit of cost 0 succeeds for every pubkey whose USDC
balance is non-negative — including one with no balance rows at all: the
USDC branch is taken (`0 >= 0`), the USDC mint is returned, the `(pubkey,
USDC)` row is lazily created, the balance is unchanged, and one DEBIT
transaction of amount 0 is appended; such a request is never rejected as
insufficient funds. -/
theorem C10_zero_cost_debit_succeeds (db : DB) (pk uj : String)
    (h : 0 ≤ get_balance db pk USDC_MINT) :
    (debit_agent db pk 0 uj).1 = some USDC_MINT ∧
    get_balance (debit_agent db pk 0 uj).2 pk USDC_MINT = get_balance db pk USDC_MINT ∧
    (debit_agent db pk 0 uj).2.transactions
        = db.transactions ++ [⟨pk, USDC_MINT, "DEBIT", 0, some uj⟩] ∧
    ((debit_agent db pk 0 uj).2.agents.find?
        (fun r => r.pubkey = pk ∧ r.token_mint = USDC_MINT)).isSome ∧
    (db.agents = [] → (debit_agent db pk 0 uj).2.agents = [⟨pk, USDC_MINT, 0⟩]) := by
  simp only [debit_agent, if_pos h]
  refine ⟨trivial, ?_, ?_, ?_, ?_⟩
  · rw [get_balance_update_balance_same]; omega
  · rw [update_balance_transactions]; norm_num
  · exact update_balance_rowExists db pk USDC_MINT (-0) "DEBIT" (some uj)
  · intro h0
    simp [update_balance, appendTx, applyBalanceDelta, insertOrIgnoreAgent, h0, List.find?]

/-- Witness for C10: on a fresh store (no balance rows at all) a zero-cost
debit returns the USDC mint and creates the `(pubkey, USDC)` row at 0. -/
theorem C10_zero_cost_debit_succeeds_witness :
    (debit_agent (init_db 150) "Anyone" 0 "usage").1 = some USDC_MINT ∧
    (debit_agent (init_db 150) "Anyone" 0 "usage").2.agents = [⟨"Anyone", USDC_MINT, 0⟩] :=
  ⟨(C10_zero_cost_debit_succeeds (init_db 150) "Anyone" "usage" (by decide)).1,
    (C10_zero_cost_debit_succeeds (init_db 150) "Anyone" "usage" (by decide)).2.2.2.2 rfl⟩

/-- C5 counterexample: `parse_deposit_account` never verifies the 8-byte
discriminator prefix.  A 48-byte all-zero input, whose first 8 bytes differ
from the discriminator, parses to a record instead of `none`, refuting the
claim that any input with a wrong discriminator yields null. -/
theorem C5_parse_wrong_discriminator_counterexample :
    (List.replicate 48 0).take 8 ≠ DEPOSIT_ACCOUNT_DISCRIMINATOR ∧
    parse_deposit_account (List.replicate 48 0) ≠ none := by decide

/-- C5 (amended): `parse_deposit_account` returns `none` exactly when the
input is shorter than 48 bytes or the little-endian balance field (at the
length-dependent offset) decodes to a value greater than `2^63 - 1`; the
discriminator prefix is not examined.  When a record is returned its balance
is exactly that field. -/
theorem C5_parse_deposit_account_none_iff (data : List Nat) :
    (parse_deposit_account data = none ↔
      data.length < 48 ∨ MAX_SQLITE_INTEGER < balanceFieldOf data) ∧
    (∀ rec : DepositAccountRec, parse_deposit_account data = some rec →
      rec.balance = balanceFieldOf data) := by
  by_cases h48 : data.length < 48
  · constructor
    · simp [parse_deposit_account, h48]
    · intro rec hrec
      simp [parse_deposit_account, h48] at hrec
  · have h48' : ¬data.length < 48 := h48
    by_cases h88 : 88 ≤ data.length
    · have hbf : balanceFieldOf data = decodeLE ((data.drop 80).take 8) := by
        simp [balanceFieldOf, h88]
      simp only [parse_deposit_account, if_neg h48', if_pos h88]
      by_cases hball : MAX_SQLITE_INTEGER < decodeLE ((data.drop 80).take 8)
      · rw [if_pos hball]
        exact ⟨by simp [hbf, hball], by intro rec hrec; exact absurd hrec (by simp)⟩
      · rw [if_neg hball]
        refine ⟨by simp [hbf, hball, h48'], ?_⟩
        intro rec hrec
        rw [hbf]
        cases hrec
        rfl
    · by_cases h80 : 80 ≤ data.length
      · have hbf : balanceFieldOf data = decodeLE ((data.drop 72).take 8) := by
          simp [balanceFieldOf, h88, h80]
        simp only [parse_deposit_account, if_neg h48', if_neg h88, if_pos h80]
        by_cases hball : MAX_SQLITE_INTEGER < decodeLE ((data.drop 72).take 8)
        · rw [if_pos hball]
          exact ⟨by simp [hbf, hball], by intro rec hrec; exact absurd hrec (by simp)⟩
        · rw [if_neg hball]
          refine ⟨by simp [hbf, hball, h48'], ?_⟩
          intro rec hrec
          rw [hbf]
          cases hrec
          rfl
      · have hbf : balanceFieldOf data = decodeLE ((data.drop 40).take 8) := by
          simp [balanceFieldOf, h88, h80]
        simp only [parse_deposit_account, if_neg h48', if_neg h88, if_neg h80]
        by_cases hball : MAX_SQLITE_INTEGER < decodeLE ((data.drop 40).take 8)
        · rw [if_pos hball]
          exact ⟨by simp [hbf, hball], by intro rec hrec; exact absurd hrec (by simp)⟩
        · rw [if_neg hball]
          refine ⟨by simp [hbf, hball, h48'], ?_⟩
          intro rec hrec
          rw [hbf]
          cases hrec
          rfl

/-- Witness for C5 (amended): a 48-byte account whose balance field encodes
`2^63` (one above the signed-64-bit maximum) is rejected, via the amended
theorem applied at that concrete input. -/
theorem C5_parse_deposit_account_none_iff_witness :
    parse_deposit_account
      (DEPOSIT_ACCOUNT_DISCRIMINATOR ++ List.replicate 32 0 ++ [0, 0, 0, 0, 0, 0, 0, 0x80])
      = none :=
  (C5_parse_deposit_account_none_iff
    (DEPOSIT_ACCOUNT_DISCRIMINATOR ++ List.replicate 32 0
      ++ [0, 0, 0, 0, 0, 0, 0, 0x80])).1.mpr (Or.inr (by decide))

/-- C3 counterexample: `activate_token` re-runs its UPDATE unconditionally
when the deposit code exists, so a further call with the same code and a
different pubkey changes an already non-null pubkey — the pending→active
transition is not one-way. -/
theorem C3_activate_token_rebind_counterexample :
    ((activate_token ⟨[], [], [], [⟨"T", "C", some "P1"⟩]⟩ "C" "P2").2).apiTokens
        = [⟨"T", "C", some "P2"⟩] ∧
    (activate_token ⟨[], [], [], [⟨"T", "C", some "P1"⟩]⟩ "C" "P2").1 = some "T" ∧
    some "P1" ≠ some "P2" := by decide

/-- C3 (amended): a token record's pubkey is null at creation and non-null
after activation, and no ledger operation resets a non-null pubkey to null;
but the transition is not one-way: `activate_token` on an existing deposit
code overwrites every matching row's pubkey with the new value (rows with
other codes are untouched), so a later call with the same code re-binds the
record. -/
theorem C3_pubkey_nullability (db : DB) (t c code pk : String) :
    (create_api_token db t c).apiTokens = db.apiTokens ++ [⟨t, c, none⟩] ∧
    (∀ (pk' mint : String) (a : Int) (ty : String) (u : Option String),
      (update_balance db pk' mint a ty u).apiTokens = db.apiTokens) ∧
    (∀ i : Nat, ((activate_token db code pk).2).apiTokens[i]?
        = (db.apiTokens[i]?).map (fun r =>
            if (db.apiTokens.find? (fun x => x.deposit_code = code)).isSome
                ∧ r.deposit_code = code
            then { r with pubkey := some pk } else r)) ∧
    (∀ (i : Nat) (r r' : ApiTokenRow), db.apiTokens[i]? = some r →
      ((activate_token db code pk).2).apiTokens[i]? = some r' →
      r.pubkey.isSome → r'.pubkey.isSome) := by
  have key : ∀ i : Nat, ((activate_token db code pk).2).apiTokens[i]?
      = (db.apiTokens[i]?).map (fun r =>
          if (db.apiTokens.find? (fun x => x.deposit_code = code)).isSome
              ∧ r.deposit_code = code
          then { r with pubkey := some pk } else r) := by
    intro i
    unfold activate_token
    cases hf : db.apiTokens.find? (fun x => x.deposit_code = code) with
    | none =>
      simp only [hf]
      cases hr : db.apiTokens[i]? with
      | none => rfl
      | some r => simp
    | some row =>
      simp only [hf, List.getElem?_map]
      cases hr : db.apiTokens[i]? with
      | none => rfl
      | some r => simp
  refine ⟨rfl, fun pk' mint a ty u => update_balance_apiTokens db pk' mint a ty u, key, ?_⟩
  intro i r r' h1 h2 hsome
  rw [key i, h1] at h2
  simp only [Option.map_some'] at h2
  by_cases hcond : (db.apiTokens.find? (fun x => x.deposit_code = code)).isSome
      ∧ r.deposit_code = code
  · rw [if_pos hcond] at h2
    cases h2
    rfl
  · rw [if_neg hcond] at h2
    cases h2
    exact hsome

/-- Witness for C3 (amended) at a concrete store: activating code `C` for
`P2` on a store whose only record is already bound to `P1` rewrites that
record (the per-index equation instantiated at index 0), and non-nullness is
preserved there. -/
theorem C3_pubkey_nullability_witness :
    ((activate_token ⟨[], [], [], [⟨"T", "C", some "P1"⟩]⟩ "C" "P2").2).apiTokens[0]?
        = some ⟨"T", "C", some "P2"⟩ ∧
    ((⟨"T", "C", some "P2"⟩ : ApiTokenRow)).pubkey.isSome := by
  constructor
  · rw [(C3_pubkey_nullability ⟨[], [], [], [⟨"T", "C", some "P1"⟩]⟩ "T" "C" "C" "P2").2.2.1 0]
    decide
  · exact (C3_pubkey_nullability ⟨[], [], [], [⟨"T", "C", some "P1"⟩]⟩ "T" "C" "C" "P2").2.2.2
      0 ⟨"T", "C", some "P1"⟩ ⟨"T", "C", some "P2"⟩ (by decide)
      (by rw [(C3_pubkey_nullability ⟨[], [], [], [⟨"T", "C", some "P1"⟩]⟩ "T" "C" "C"
        "P2").2.2.1 0]; decide)
      (by decide)

/-- Distinct deposit codes (the SQL UNIQUE constraint on `deposit_code`)
make two member rows with the same code identical. -/
theorem codes_unique_of_pairwise (l : List ApiTokenRow)
    (hp : l.Pairwise (fun a b => a.deposit_code ≠ b.deposit_code)) :
    ∀ r1 ∈ l, ∀ r2 ∈ l, r1.deposit_code = r2.deposit_code → r1 = r2 := by
  induction l with
  | nil => intro r1 h1; exact absurd h1 (List.not_mem_nil r1)
  | cons a t ih =>
    have hpt := (List.pairwise_cons.mp hp).2
    have hha := (List.pairwise_cons.mp hp).1
    intro r1 h1 r2 h2 hcode
    rcases List.mem_cons.mp h1 with rfl | h1t
    · rcases List.mem_cons.mp h2 with rfl | h2t
      · rfl
      · exact absurd hcode (hha r2 h2t)
    · rcases List.mem_cons.mp h2 with rfl | h2t
      · exact absurd hcode.symm (hha r1 h1t)
      · exact ih hpt r1 h1t r2 h2t hcode

/-- C6: `find_token_by_deposit_code` (modelled from the spec, see its doc
comment) returns the associated api_token iff a row with that deposit code
exists and its pubkey is null (still pending); for an already-activated code
and for an unknown code it returns `none`.  The hypothesis is the schema's
UNIQUE constraint on `deposit_code`. -/
theorem C6_find_token_by_deposit_code_pending_iff (db : DB) (code : String)
    (hp : db.apiTokens.Pairwise (fun a b => a.deposit_code ≠ b.deposit_code)) :
    (∀ t : String, find_token_by_deposit_code db code = some t ↔
      ∃ r : ApiTokenRow, r ∈ db.apiTokens ∧ r.deposit_code = code ∧ r.pubkey = none
        ∧ r.api_token = t) ∧
    (∀ r : ApiTokenRow, r ∈ db.apiTokens → r.deposit_code = code → r.pubkey ≠ none →
      find_token_by_deposit_code db code = none) ∧
    ((¬∃ r : ApiTokenRow, r ∈ db.apiTokens ∧ r.deposit_code = code) →
      find_token_by_deposit_code db code = none) := by
  have huniq := codes_unique_of_pairwise db.apiTokens hp
  refine ⟨?_, ?_, ?_⟩
  · intro t
    constructor
    · intro h
      unfold find_token_by_deposit_code at h
      cases hf : db.apiTokens.find? (fun r => r.deposit_code = code ∧ r.pubkey = none) with
      | none => rw [hf] at h; exact absurd h (by simp)
      | some r0 =>
        rw [hf] at h
        simp only [Option.map_some'] at h
        have hpred : r0.deposit_code = code ∧ r0.pubkey = none := by
          simpa using List.find?_some hf
        exact ⟨r0, List.mem_of_find?_eq_some hf, hpred.1, hpred.2, by
          cases h; rfl⟩
    · rintro ⟨r, hmem, hcode, hnull, htok⟩
      have hsome : (db.apiTokens.find?
          (fun r => r.deposit_code = code ∧ r.pubkey = none)).isSome := by
        rw [List.find?_isSome]
        exact ⟨r, hmem, by simp [hcode, hnull]⟩
      obtain ⟨r0, hf⟩ := Option.isSome_iff_exists.mp hsome
      have hpred : r0.deposit_code = code ∧ r0.pubkey = none := by
        simpa using List.find?_some hf
      have : r0 = r := huniq r0 (List.mem_of_find?_eq_some hf) r hmem
        (hpred.1.trans hcode.symm)
      unfold find_token_by_deposit_code
      rw [hf, Option.map_some', this, htok]
  · intro r hmem hcode hact
    unfold find_token_by_deposit_code
    cases hf : db.apiTokens.find? (fun r => r.deposit_code = code ∧ r.pubkey = none) with
    | none => rfl
    | some r0 =>
      have hpred : r0.deposit_code = code ∧ r0.pubkey = none := by
        simpa using List.find?_some hf
      have : r0 = r := huniq r0 (List.mem_of_find?_eq_some hf) r hmem
        (hpred.1.trans hcode.symm)
      exact absurd (this ▸ hpred.2) hact
  · intro hnone
    unfold find_token_by_deposit_code
    have : db.apiTokens.find? (fun r => r.deposit_code = code ∧ r.pubkey = none) = none := by
      rw [List.find?_eq_none]
      intro r hmem hpred
      exact hnone ⟨r, hmem, by simpa using (of_decide_eq_true hpred).1⟩
    rw [this]
    rfl

/-- Witness for C6: on a store with one pending and one activated record,
the pending code is findable, the activated one and an unknown one are not. -/
theorem C6_find_token_by_deposit_code_pending_iff_witness :
    find_token_by_deposit_code ⟨[], [], [], [⟨"T1", "C1", none⟩, ⟨"T2", "C2", some "P"⟩]⟩ "C1"
        = some "T1" ∧
    find_token_by_deposit_code ⟨[], [], [], [⟨"T1", "C1", none⟩, ⟨"T2", "C2", some "P"⟩]⟩ "C2"
        = none ∧
    find_token_by_deposit_code ⟨[], [], [], [⟨"T1", "C1", none⟩, ⟨"T2", "C2", some "P"⟩]⟩
        "NOTACODE" = none := by
  refine ⟨?_, ?_, ?_⟩
  · exact ((C6_find_token_by_deposit_code_pending_iff
      ⟨[], [], [], [⟨"T1", "C1", none⟩, ⟨"T2", "C2", some "P"⟩]⟩ "C1" (by decide)).1
      "T1").mpr ⟨⟨"T1", "C1", none⟩, by decide, rfl, rfl, rfl⟩
  · exact (C6_find_token_by_deposit_code_pending_iff
      ⟨[], [], [], [⟨"T1", "C1", none⟩, ⟨"T2", "C2", some "P"⟩]⟩ "C2" (by decide)).2.1
      ⟨"T2", "C2", some "P"⟩ (by decide) rfl (by decide)
  · exact (C6_find_token_by_deposit_code_pending_iff
      ⟨[], [], [], [⟨"T1", "C1", none⟩, ⟨"T2", "C2", some "P"⟩]⟩ "NOTACODE" (by decide)).2.2
      (by decide)

/-- After a sync, the local balance for the synced pair equals the on-chain
balance (whether or not a correction transaction was needed). -/
theorem sync_balance_get_balance (db : DB) (owner mint : String) (X : Int) (code : String) :
    get_balance (sync_balance db owner mint X code) owner mint = X := by
  simp only [sync_balance]
  by_cases g : 0 < X - get_balance db owner mint ∧ get_balance db owner mint = 0 ∧ code ≠ ""
  · rw [if_pos g]
    have hδ : X - get_balance db owner mint ≠ 0 := by
      have := g.1
      omega
    rw [if_pos hδ, get_balance_update_balance_same,
      get_balance_congr_agents db ((activate_token db code owner).2) owner mint
        (activate_token_agents db code owner)]
    omega
  · rw [if_neg g]
    by_cases hδ : X - get_balance db owner mint ≠ 0
    · rw [if_pos hδ, get_balance_update_balance_same]
      omega
    · rw [if_neg hδ]
      omega

/-- C7: `_sync_balance` activates (calls `activate_token(deposit_code,
owner)`) exactly when `delta > 0` and the current local balance is 0 and the
deposit code is non-empty — observable as the api-token table becoming the
activated table in that case and staying untouched otherwise; activation
with an unknown code is a silent no-op on the store, and the sync still
proceeds: the local balance always ends at the on-chain balance. -/
theorem C7_sync_balance_activation_condition (db : DB) (owner mint : String) (X : Int)
    (code : String) :
    ((sync_balance db owner mint X code).apiTokens =
      if 0 < X - get_balance db owner mint ∧ get_balance db owner mint = 0 ∧ code ≠ ""
      then ((activate_token db code owner).2).apiTokens
      else db.apiTokens) ∧
    ((¬∃ r : ApiTokenRow, r ∈ db.apiTokens ∧ r.deposit_code = code) →
      activate_token db code owner = (none, db)) ∧
    get_balance (sync_balance db owner mint X code) owner mint = X := by
  refine ⟨?_, ?_, sync_balance_get_balance db owner mint X code⟩
  · simp only [sync_balance]
    by_cases g : 0 < X - get_balance db owner mint ∧ get_balance db owner mint = 0 ∧ code ≠ ""
    · rw [if_pos g, if_pos g]
      have hδ : X - get_balance db owner mint ≠ 0 := by
        have := g.1
        omega
      rw [if_pos hδ, update_balance_apiTokens]
    · rw [if_neg g, if_neg g]
      by_cases hδ : X - get_balance db owner mint ≠ 0
      · rw [if_pos hδ, update_balance_apiTokens]
      · rw [if_neg hδ]
  · intro hnone
    unfold activate_token
    have hf : db.apiTokens.find? (fun r => r.deposit_code = code) = none := by
      rw [List.find?_eq_none]
      intro r hmem hpred
      exact hnone ⟨r, hmem, of_decide_eq_true hpred⟩
    rw [hf]

/-- Witness for C7: a first deposit with a pending code activates the token
(api-token table rewritten), and a sync whose code matches no row leaves the
activation a no-op while still crediting the balance. -/
theorem C7_sync_balance_activation_condition_witness :
    (sync_balance ⟨[], [], [], [⟨"T", "C", none⟩]⟩ "P" SOL_MINT 1000000 "C").apiTokens
        = [⟨"T", "C", some "P"⟩] ∧
    activate_token ⟨[], [], [], [⟨"T", "C", none⟩]⟩ "WRONGCDE" "P"
        = (none, ⟨[], [], [], [⟨"T", "C", none⟩]⟩) ∧
    get_balance (sync_balance ⟨[], [], [], [⟨"T", "C", none⟩]⟩ "P" SOL_MINT 1000000 "WRONGCDE")
        "P" SOL_MINT = 1000000 := by
  refine ⟨?_, ?_, ?_⟩
  · rw [(C7_sync_balance_activation_condition ⟨[], [], [], [⟨"T", "C", none⟩]⟩ "P" SOL_MINT
      1000000 "C").1]
    decide
  · exact (C7_sync_balance_activation_condition ⟨[], [], [], [⟨"T", "C", none⟩]⟩ "P" SOL_MINT
      1000000 "WRONGCDE").2.1 (by decide)
  · exact (C7_sync_balance_activation_condition ⟨[], [], [], [⟨"T", "C", none⟩]⟩ "P" SOL_MINT
      1000000 "WRONGCDE").2.2

/-- C8 counterexample: when the local balance already equals the on-chain
balance, running `sync_balance` twice appends zero transactions, not exactly
one — refuting the universally quantified claim at owner "Owner", SOL mint,
X = 0, empty code on a fresh store. -/
theorem C8_sync_balance_idempotent_counterexample :
    ¬ ((sync_balance (sync_balance (init_db 150) "Owner" SOL_MINT 0 "") "Owner" SOL_MINT 0
        "").transactions.length = (init_db 150).transactions.length + 1) := by decide

/-- C8 (amended): running `sync_balance(owner, mint, X, code)` twice appends
exactly one transaction in total — a MIRROR_DEPOSIT (delta > 0) or
MIRROR_CORRECTION (delta < 0) carrying the delta — provided the initial
local balance differs from X; when it already equals X both calls are
no-ops appending nothing.  The second call always observes `delta == 0` and
changes nothing: re-sync is idempotent. -/
theorem C8_sync_balance_idempotent (db : DB) (owner mint : String) (X : Int) (code : String) :
    (get_balance db owner mint ≠ X →
      (sync_balance db owner mint X code).transactions
        = db.transactions ++ [⟨owner, mint,
            (if 0 < X - get_balance db owner mint then "MIRROR_DEPOSIT"
             else "MIRROR_CORRECTION"),
            X - get_balance db owner mint,
            some (mirror_snapshot X (get_balance db owner mint))⟩]) ∧
    (get_balance db owner mint = X → sync_balance db owner mint X code = db) ∧
    sync_balance (sync_balance db owner mint X code) owner mint X code
        = sync_balance db owner mint X code := by
  have second : ∀ db' : DB, get_balance db' owner mint = X →
      sync_balance db' owner mint X code = db' := by
    intro db' h
    simp only [sync_balance, h]
    rw [if_neg (by omega), if_neg (by omega)]
  refine ⟨?_, second db, second (sync_balance db owner mint X code)
    (sync_balance_get_balance db owner mint X code)⟩
  intro hne
  simp only [sync_balance]
  have hδ : X - get_balance db owner mint ≠ 0 := by omega
  by_cases g : 0 < X - get_balance db owner mint ∧ get_balance db owner mint = 0 ∧ code ≠ ""
  · rw [if_pos g, if_pos hδ, update_balance_transactions,
      activate_token_transactions db code owner]
  · rw [if_neg g, if_pos hδ, update_balance_transactions]

/-- Witness for C8: on a fresh store a first sync to 1_000_000 lamports
appends exactly the MIRROR_DEPOSIT transaction, and a sync of an
already-synced pair is the identity. -/
theorem C8_sync_balance_idempotent_witness :
    (sync_balance (init_db 150) "O" SOL_MINT 1000000 "").transactions
        = [⟨"O", SOL_MINT, "MIRROR_DEPOSIT", 1000000, some (mirror_snapshot 1000000 0)⟩] ∧
    sync_balance ⟨[⟨"O", SOL_MINT, 5⟩], [], [], []⟩ "O" SOL_MINT 5 ""
        = ⟨[⟨"O", SOL_MINT, 5⟩], [], [], []⟩ := by
  constructor
  · rw [(C8_sync_balance_idempotent (init_db 150) "O" SOL_MINT 1000000 "").1 (by decide)]
    decide
  · exact (C8_sync_balance_idempotent ⟨[⟨"O", SOL_MINT, 5⟩], [], [], []⟩ "O" SOL_MINT 5
      "").2.1 (by decide)

/-- The dict comprehension of `get_all_balances`, run from an accumulator
whose keys avoid the upcoming mints of `pk`-rows, appends one entry per
matching row, provided the `(pubkey, token_mint)` primary key is unique. -/
theorem get_all_balances_foldl (pk : String) (l : List AgentRow) :
    ∀ m : List (String × Int),
      (∀ r ∈ l, r.pubkey = pk → m.find? (fun e => e.1 = r.token_mint) = none) →
      l.Pairwise (fun a b => ¬(a.pubkey = b.pubkey ∧ a.token_mint = b.token_mint)) →
      l.foldl (fun m r => if r.pubkey = pk then dictInsert m r.token_mint r.balance else m) m
        = m ++ (l.filter (fun r => r.pubkey = pk)).map (fun r => (r.token_mint, r.balance)) := by
  induction l with
  | nil => intro m _ _; simp
  | cons a t ih =>
    intro m hdisj hpw
    have hpa := (List.pairwise_cons.mp hpw).1
    have hpt := (List.pairwise_cons.mp hpw).2
    by_cases hp : a.pubkey = pk
    · have hnone : m.find? (fun e => e.1 = a.token_mint) = none :=
        hdisj a (List.mem_cons_self a t) hp
      have hstep : dictInsert m a.token_mint a.balance = m ++ [(a.token_mint, a.balance)] := by
        unfold dictInsert
        rw [if_neg (by rw [hnone]; simp)]
      simp only [List.foldl_cons, if_pos hp, hstep]
      rw [ih (m ++ [(a.token_mint, a.balance)]) ?_ hpt]
      · rw [List.filter_cons_of_pos (by simp [hp]), List.map_cons, List.append_assoc]
        rfl
      · intro r hr hrpk
        rw [List.find?_append, hdisj r (List.mem_cons_of_mem a hr) hrpk, Option.none_or,
          find?_singleton]
        rw [if_neg ?_]
        have hne : ¬(a.pubkey = r.pubkey ∧ a.token_mint = r.token_mint) := hpa r hr
        simp only [decide_eq_true_eq]
        intro heq
        exact hne ⟨hp.trans hrpk.symm, heq⟩
    · simp only [List.foldl_cons, if_neg hp]
      rw [ih m (fun r hr hrpk => hdisj r (List.mem_cons_of_mem a hr) hrpk) hpt,
        List.filter_cons_of_neg (by simp [hp])]

/-- Under the primary-key constraint, the total `handle_proxy` computes is
the plain sum of the pubkey's balances over all its mints. -/
theorem get_all_balances_sum (db : DB) (pk : String)
    (hpw : db.agents.Pairwise (fun a b => ¬(a.pubkey = b.pubkey ∧ a.token_mint = b.token_mint))) :
    ((get_all_balances db pk).map (fun e => e.2)).sum
      = ((db.agents.filter (fun r => r.pubkey = pk)).map (fun r => r.balance)).sum := by
  unfold get_all_balances
  rw [get_all_balances_foldl pk db.agents [] (by intro r _ _; rfl) hpw]
  rw [List.nil_append, List.map_map]
  rfl

/-- C9: a proxy request whose URL token does not resolve to an activated
pubkey is answered 401 "Invalid or inactive API token"; one that resolves to
a pubkey whose balances sum to ≤ 0 over all mints is answered 402
"Insufficient Deposit Balance"; in both cases no upstream request is issued
and the store (hence every balance) is unchanged.  Under the primary-key
constraint the total used for admission is exactly the sum of the pubkey's
balances over all mints. -/
theorem C9_proxy_reject_before_upstream (db : DB) (tok : String) (req : ProxyRequest)
    (key : Option String) (up : UpstreamResult) :
    (get_pubkey_from_token db tok = none →
      openai_proxy db tok req key up
        = ⟨401, some "Invalid or inactive API token", db, false⟩) ∧
    (∀ pk : String, get_pubkey_from_token db tok = some pk →
      ((get_all_balances db pk).map (fun e => e.2)).sum ≤ 0 →
      openai_proxy db tok req key up
        = ⟨402, some "Insufficient Deposit Balance", db, false⟩) ∧
    (∀ pk : String,
      db.agents.Pairwise (fun a b => ¬(a.pubkey = b.pubkey ∧ a.token_mint = b.token_mint)) →
      ((get_all_balances db pk).map (fun e => e.2)).sum
        = ((db.agents.filter (fun r => r.pubkey = pk)).map (fun r => r.balance)).sum) := by
  refine ⟨?_, ?_, fun pk hpw => get_all_balances_sum db pk hpw⟩
  · intro h
    simp only [openai_proxy, h]
  · intro pk hpk htot
    simp only [openai_proxy, hpk, handle_proxy]
    rw [if_pos htot]

/-- Witness for C9: on a store with one activated token bound to a pubkey
with a zero balance row, an unknown token gets 401 and the activated token
gets 402, both leaving the store unchanged; the admission total is the row
sum. -/
theorem C9_proxy_reject_before_upstream_witness :
    openai_proxy ⟨[⟨"P", USDC_MINT, 0⟩], [], [], [⟨"T", "C", some "P"⟩]⟩ "BAD"
        ⟨some "gpt-4o", true, false⟩ none ⟨200, ⟨1, 1⟩⟩
      = ⟨401, some "Invalid or inactive API token",
          ⟨[⟨"P", USDC_MINT, 0⟩], [], [], [⟨"T", "C", some "P"⟩]⟩, false⟩ ∧
    openai_proxy ⟨[⟨"P", USDC_MINT, 0⟩], [], [], [⟨"T", "C", some "P"⟩]⟩ "T"
        ⟨some "gpt-4o", true, false⟩ none ⟨200, ⟨1, 1⟩⟩
      = ⟨402, some "Insufficient Deposit Balance",
          ⟨[⟨"P", USDC_MINT, 0⟩], [], [], [⟨"T", "C", some "P"⟩]⟩, false⟩ ∧
    ((get_all_balances ⟨[⟨"P", USDC_MINT, 0⟩], [], [], [⟨"T", "C", some "P"⟩]⟩ "P").map
        (fun e => e.2)).sum = 0 := by
  refine ⟨?_, ?_, ?_⟩
  · exact (C9_proxy_reject_before_upstream ⟨[⟨"P", USDC_MINT, 0⟩], [], [],
      [⟨"T", "C", some "P"⟩]⟩ "BAD" ⟨some "gpt-4o", true, false⟩ none ⟨200, ⟨1, 1⟩⟩).1
      (by decide)
  · exact (C9_proxy_reject_before_upstream ⟨[⟨"P", USDC_MINT, 0⟩], [], [],
      [⟨"T", "C", some "P"⟩]⟩ "T" ⟨some "gpt-4o", true, false⟩ none ⟨200, ⟨1, 1⟩⟩).2.1
      "P" (by decide) (by decide)
  · rw [(C9_proxy_reject_before_upstream ⟨[⟨"P", USDC_MINT, 0⟩], [], [],
      [⟨"T", "C", some "P"⟩]⟩ "T" ⟨some "gpt-4o", true, false⟩ none ⟨200, ⟨1, 1⟩⟩).2.2
      "P" (by decide)]
    decide
